import Mathlib

/-!
Verification development for the computation-graph core of the repository
(`src/include/compute/operation.h`, class `magmadnn::op::Operation<T>`).

Modelling conventions (shallow embedding):
* Pointers (`Operation<T> *`, `Tensor<T> *`) are modelled by natural-number
  identities; a `Tensor<T> *` that may be `NULL` is an `Option Nat` with
  `none` standing for the null pointer.
* The mutable fields of an `Operation` object are gathered in the structure
  `Operation` below; a member function that mutates the object becomes a
  function `Operation → ... → Operation` (or returns a pair with its result).
* The pure-virtual hooks `_eval` and `_grad` (implemented by subclasses that
  are outside this header) are passed in as function parameters, so the
  theorems quantify over every possible subclass behaviour.
* `std::map<uintptr_t, Tensor<T> *>` is modelled by an association list with
  the `std::map` operations used by the source: `insert` (which does nothing
  when the key is present), `operator[]` (which default-inserts a null value
  when the key is absent), and `find` (whose result dereferenced at an absent
  key is undefined behaviour, modelled by returning `none`).
* `unsigned int` arithmetic wraps modulo 2^32, written explicitly.
-/

namespace magmadnn.op

/-- Width of C `unsigned int` values: arithmetic in `get_output_size` wraps
modulo this constant. -/
def UINT_MOD : Nat := 2 ^ 32

/-- The gradient cache `std::map<uintptr_t, Tensor<T> *>`: an association
list from the integer value of a node pointer to a nullable tensor pointer
(`none` = the C `NULL` pointer stored as a value). -/
abbrev GradCache := List (Nat × Option Nat)

/-- Lookup in the gradient cache: `some v` when the key is present with
stored pointer `v`, `none` when the key is absent. -/
def cacheLookup (k : Nat) : GradCache → Option (Option Nat)
  | [] => none
  | (k', v) :: rest => if k = k' then some v else cacheLookup k rest

/-- `std::map::insert(std::make_pair(k, v))`: inserts only when the key is
absent; an existing entry is left unchanged. -/
def cacheInsert (k : Nat) (v : Option Nat) (m : GradCache) : GradCache :=
  match cacheLookup k m with
  | some _ => m
  | none => m ++ [(k, v)]

/-- `std::map::operator[] (k)`: returns the stored value, default-inserting
a value-initialised entry (`NULL`, i.e. `none`) when the key is absent.
Returns the read value together with the possibly-extended map. -/
def cacheIndex (k : Nat) (m : GradCache) : Option Nat × GradCache :=
  match cacheLookup k m with
  | some v => (v, m)
  | none => (none, m ++ [(k, none)])

/-- The data fields of `magmadnn::op::Operation<T>` (operation.h, protected
section): input pointers, consumer pointers, output shape, memory type,
gradient cache, name, nullable cached output tensor, and the three flags. -/
structure Operation where
  inputs : List Nat
  consumers : List Nat
  output_shape : List Nat
  mem_type : Nat
  grad_cache : GradCache
  name : String
  output_tensor : Option Nat
  needs_grad : Bool
  has_been_computed : Bool
  has_grad_been_computed : Bool
  deriving DecidableEq

/-- `Operation::get_output_size` (operation.h lines 96-100): starts from 1
and multiplies in each entry of `output_shape` with wrapping `unsigned int`
multiplication. -/
def Operation.get_output_size (s : Operation) : Nat :=
  s.output_shape.foldl (fun size d => size * d % UINT_MOD) 1

/-- `Operation::eval(recompute)` (operation.h lines 111-118).  The subclass
hook `_eval` is the parameter `frule`, returning the produced tensor pointer
and the mutated object.  The third component of the result counts how many
times `_eval` was invoked (the side-effect counter of the spec's test). -/
def Operation.eval (frule : Operation → Nat × Operation) (recompute : Bool)
    (s : Operation) : Nat × Operation × Nat :=
  match recompute, s.has_been_computed, s.output_tensor with
  | false, true, some t => (t, s, 0)
  | _, _, _ =>
    let s1 := { s with has_been_computed := true }
    let r := frule s1
    (r.1, r.2, 1)

/-- `Operation::reset` (operation.h lines 122-125): clears the two flags. -/
def Operation.reset (s : Operation) : Operation :=
  { s with has_been_computed := false, has_grad_been_computed := false }

/-- `Operation::grad(consumer, var, grad, recompute)` (operation.h lines
132-145).  The subclass hook `_grad` is the parameter `grule` taking the
consumer, var and upstream-gradient pointers and the object.  With
`recompute = false` the source reads `_grad_cache[(uintptr_t) var]`
(which default-inserts a null entry on a miss) and falls through to `_grad`
whenever the read pointer is null. -/
def Operation.grad (grule : Nat → Nat → Nat → Operation → Nat × Operation)
    (consumer var g : Nat) (recompute : Bool) (s : Operation) :
    Nat × Operation :=
  if recompute then grule consumer var g s
  else
    let p := cacheIndex var s.grad_cache
    let s' := { s with grad_cache := p.2 }
    match p.1 with
    | some t => (t, s')
    | none => grule consumer var g s'

/-- `Operation::add_consumer` (operation.h line 150): `push_back` on the
`std::vector` of consumers. -/
def Operation.add_consumer (consumer : Nat) (s : Operation) : Operation :=
  { s with consumers := s.consumers ++ [consumer] }

/-- `Operation::get_grad_tensor(wrt)` (operation.h line 171): the source
dereferences `_grad_cache.find((uintptr_t) wrt)` without checking for the
end iterator, so an absent key is undefined behaviour — modelled as `none`
(no defined result).  A present key yields `some p` where `p` is the stored
nullable pointer. -/
def Operation.get_grad_tensor (wrt : Nat) (s : Operation) :
    Option (Option Nat) :=
  cacheLookup wrt s.grad_cache

/-- A heap of `Operation` objects indexed by pointer value: the constructor
`Operation::Operation(inputs, needs_grad)` mutates the objects its input
pointers refer to, so it is modelled as a transformation of such a heap. -/
def Env := Nat → Operation

/-- Pointwise heap update at pointer `p`. -/
def envUpdate (env : Env) (p : Nat) (s : Operation) : Env :=
  fun q => if q = p then s else env q

/-- The loop body of `Operation::Operation(inputs, needs_grad)` (operation.h
lines 48-53): for each input pointer in order, `(*vit)->add_consumer(this)`
when the constructed node's `needs_grad` flag is set, and
`_grad_cache.insert(make_pair((uintptr_t)(*vit), NULL))` unconditionally.
`newId` is the pointer value of the node under construction (`this`). -/
def constructLoop (newId : Nat) (ng : Bool) :
    List Nat → Env → GradCache → Env × GradCache
  | [], env, cache => (env, cache)
  | i :: rest, env, cache =>
    constructLoop newId ng rest
      (if ng then envUpdate env i ((env i).add_consumer newId) else env)
      (cacheInsert i none cache)

/-- `Operation::Operation(inputs, needs_grad)` (operation.h lines 45-66):
returns the heap after the consumer registrations together with the freshly
constructed node (empty consumer list, null output tensor, gradient cache
produced by the loop).  CUDA-only initialisation is omitted (it touches the
fields modelled separately by `OpTree`). -/
def Operation.construct (env : Env) (newId : Nat) (inputIds : List Nat)
    (ng : Bool) : Env × Operation :=
  let r := constructLoop newId ng inputIds env []
  (r.1,
   { inputs := inputIds, consumers := [], output_shape := [], mem_type := 0,
     grad_cache := r.2, name := "DefaultOpName", output_tensor := none,
     needs_grad := ng, has_been_computed := false,
     has_grad_been_computed := false })

/-- Context fields of a cached output tensor.  Modelled from the spec: the
`Tensor` class itself is not under src/; the spec describes an execution
context as "stream identifier + two opaque library-handle values" and says
tensors carry settable context fields.  `operation.h` calls
`output_tensor->set_custream` and `output_tensor->set_cublas_handle`, each
of which sets the corresponding field. -/
structure CtxTensor where
  custream : Nat
  cudnn_handle : Nat
  cublas_handle : Nat
  deriving DecidableEq

/-- `CudaExecContext`.  Modelled from the spec: the class is not under src/;
per the spec it bundles a stream identifier and two library handles, read by
`operation.h` via `stream()`, `cublas_handle()` and `cudnn_handle()`. -/
structure CudaExecContext where
  stream : Nat
  cublas_handle : Nat
  cudnn_handle : Nat
  deriving DecidableEq

/-- The CUDA-relevant state of an `Operation` node together with its owned
input subtrees: `custream_`, `cudnn_handle_`, `cublas_handle_`, the nullable
cached output tensor, and the owned `inputs`.  Single ownership of each
input edge (spec §3) makes the input graph a tree, so the recursive
propagation walks can be modelled structurally. -/
inductive OpTree where
  | node (custream : Nat) (cudnn : Nat) (cublas : Nat)
      (output_tensor : Option CtxTensor) (inputs : List OpTree)

/-- Stream field of the root (`Operation::get_custream`). -/
def OpTree.custream : OpTree → Nat
  | .node cs _ _ _ _ => cs

/-- cuDNN-handle field of the root (`Operation::get_cudnn_handle`). -/
def OpTree.cudnn : OpTree → Nat
  | .node _ cd _ _ _ => cd

/-- cuBLAS-handle field of the root (`Operation::get_cublas_handle`). -/
def OpTree.cublas : OpTree → Nat
  | .node _ _ cb _ _ => cb

/-- Cached output tensor of the root (`Operation::get_output_tensor`). -/
def OpTree.output_tensor : OpTree → Option CtxTensor
  | .node _ _ _ out _ => out

/-- Owned inputs of the root (`Operation::get_inputs`). -/
def OpTree.inputs : OpTree → List OpTree
  | .node _ _ _ _ ins => ins

mutual

/-- `Operation::set_custream` (operation.h lines 199-211): recurses into
every owned input, updates the cached output tensor's stream when the
tensor is non-null, then sets the node's own `custream_`. -/
def OpTree.set_custream (cs : Nat) : OpTree → OpTree
  | .node _ cd cb out ins =>
    .node cs cd cb (out.map fun t => { t with custream := cs })
      (setCustreamList cs ins)

/-- `set_custream` applied to each tree of a list (the input-loop of
`Operation::set_custream`). -/
def setCustreamList (cs : Nat) : List OpTree → List OpTree
  | [] => []
  | x :: xs => OpTree.set_custream cs x :: setCustreamList cs xs

end

mutual

/-- `Operation::set_cudnn_handle` (operation.h lines 215-224): recurses into
every owned input and sets the node's own `cudnn_handle_`; it does NOT
touch the cached output tensor. -/
def OpTree.set_cudnn_handle (cd : Nat) : OpTree → OpTree
  | .node cs _ cb out ins =>
    .node cs cd cb out (setCudnnList cd ins)

/-- `set_cudnn_handle` applied to each tree of a list (the input-loop of
`Operation::set_cudnn_handle`). -/
def setCudnnList (cd : Nat) : List OpTree → List OpTree
  | [] => []
  | x :: xs => OpTree.set_cudnn_handle cd x :: setCudnnList cd xs

end

mutual

/-- `Operation::set_cublas_handle` (operation.h lines 228-240): recurses
into every owned input, updates the cached output tensor's cuBLAS handle
when the tensor is non-null, then sets the node's own `cublas_handle_`. -/
def OpTree.set_cublas_handle (cb : Nat) : OpTree → OpTree
  | .node cs cd _ out ins =>
    .node cs cd cb (out.map fun t => { t with cublas_handle := cb })
      (setCublasList cb ins)

/-- `set_cublas_handle` applied to each tree of a list (the input-loop of
`Operation::set_cublas_handle`). -/
def setCublasList (cb : Nat) : List OpTree → List OpTree
  | [] => []
  | x :: xs => OpTree.set_cublas_handle cb x :: setCublasList cb xs

end

/-- `Operation::cuda_exec_context` (operation.h lines 188-195): applies the
stream, then the cuBLAS handle, then the cuDNN handle of the context. -/
def OpTree.cuda_exec_context (ctx : CudaExecContext) (t : OpTree) : OpTree :=
  OpTree.set_cudnn_handle ctx.cudnn_handle
    (OpTree.set_cublas_handle ctx.cublas_handle
      (OpTree.set_custream ctx.stream t))

mutual

/-- All nodes reachable from the root through input-ownership edges, the
root included. -/
def OpTree.nodes : OpTree → List OpTree
  | .node cs cd cb out ins => OpTree.node cs cd cb out ins :: nodesList ins

/-- All nodes reachable from any root in a list of trees. -/
def nodesList : List OpTree → List OpTree
  | [] => []
  | x :: xs => OpTree.nodes x ++ nodesList xs

end

/-! Section: Sample objects used by witnesses and counterexamples -/

/-- A freshly default-initialised operation with no inputs and an empty
gradient cache. -/
def sampleEmpty : Operation :=
  { inputs := [], consumers := [], output_shape := [], mem_type := 0,
    grad_cache := [], name := "DefaultOpName", output_tensor := none,
    needs_grad := true, has_been_computed := false,
    has_grad_been_computed := false }

/-- An operation that has already been evaluated: computed flag set and a
non-null cached output tensor (pointer value 5). -/
def sampleComputed : Operation :=
  { sampleEmpty with has_been_computed := true, output_tensor := some 5 }

/-- An operation whose `needs_grad` flag is false. -/
def opNoGrad : Operation := { sampleEmpty with needs_grad := false }

/-- A heap in which every pointer refers to a no-gradient operation with an
empty consumer list. -/
def env0 : Env := fun _ => opNoGrad

/-- An operation whose declared output shape has an element count of 2^33,
which does not fit in an `unsigned int`. -/
def overflowShapeOp : Operation :=
  { sampleEmpty with output_shape := [65536, 65536, 2] }

/-! Section: Gradient-cache lemmas -/

/-- Appending a fresh binding is found by lookup at its key and invisible at
other keys. -/
theorem cacheLookup_append_single (k i : Nat) (v : Option Nat)
    (m : GradCache) (h : cacheLookup i m = none) :
    cacheLookup k (m ++ [(i, v)]) = if k = i then some v else cacheLookup k m := by
  induction m with
  | nil => simp [cacheLookup]
  | cons e m ih =>
    obtain ⟨k', w⟩ := e
    simp only [cacheLookup, List.cons_append] at h ⊢
    by_cases hik : i = k'
    · simp [hik] at h
    · simp only [if_neg hik] at h
      by_cases hk : k = k'
      · have hki : ¬k' = i := fun hh => hik hh.symm
        simp [hk, hki]
      · simp only [if_neg hk]
        exact ih h

/-- Effect of `std::map::insert` on subsequent lookups. -/
theorem cacheLookup_cacheInsert (k i : Nat) (v : Option Nat) (m : GradCache) :
    cacheLookup k (cacheInsert i v m)
      = if k = i then
          (match cacheLookup i m with
           | some w => some w
           | none => some v)
        else cacheLookup k m := by
  unfold cacheInsert
  cases h : cacheLookup i m with
  | some w =>
    simp only [h]
    by_cases hk : k = i
    · subst hk
      simp [h]
    · simp [hk]
  | none =>
    simp only [h]
    rw [cacheLookup_append_single k i v m h]

/-! Section: Claim theorems: forward evaluation, reset, output size -/

/-- Claim C1: with `recompute = false`, a set computed flag and a non-null
cached output tensor, `eval` returns the cached tensor unchanged, leaves the
whole object unchanged, and does not invoke the subclass forward rule
`_eval`; consequently a second such call returns the identical cached
tensor again with no forward-rule invocation. -/
theorem C1_eval_cached_no_recompute (frule : Operation → Nat × Operation)
    (s : Operation) (t : Nat)
    (hc : s.has_been_computed = true) (ht : s.output_tensor = some t) :
    Operation.eval frule false s = (t, s, 0) ∧
    Operation.eval frule false (Operation.eval frule false s).2.1 = (t, s, 0) := by
  have h1 : Operation.eval frule false s = (t, s, 0) := by
    unfold Operation.eval
    rw [hc, ht]
  exact ⟨h1, by rw [h1]; exact h1⟩

/-- Claim C1 witness: a concrete already-computed node with cached tensor 5
and a forward rule returning 9; both `eval(false)` calls return tensor 5
with zero forward-rule invocations. -/
theorem C1_eval_cached_witness :
    Operation.eval (fun s => (9, s)) false sampleComputed
      = (5, sampleComputed, 0) ∧
    Operation.eval (fun s => (9, s)) false
        (Operation.eval (fun s => (9, s)) false sampleComputed).2.1
      = (5, sampleComputed, 0) :=
  C1_eval_cached_no_recompute (fun s => (9, s)) sampleComputed 5 rfl rfl

/-- Claim C7: `reset` sets the computed and gradient-computed flags to false
and changes no other field; and the computed flag stays false under the
other base-class operations — `add_consumer`, a second `reset`, and a `grad`
dispatch whose subclass hook preserves the flag — so only `eval` can set it
again. -/
theorem C7_reset_frame (s : Operation) (c : Nat) :
    (s.reset.has_been_computed = false ∧
     s.reset.has_grad_been_computed = false ∧
     s.reset.output_tensor = s.output_tensor ∧
     s.reset.grad_cache = s.grad_cache ∧
     s.reset.inputs = s.inputs ∧
     s.reset.consumers = s.consumers ∧
     s.reset.output_shape = s.output_shape ∧
     s.reset.name = s.name ∧
     s.reset.mem_type = s.mem_type ∧
     s.reset.needs_grad = s.needs_grad ∧
     (s.reset.add_consumer c).has_been_computed = false ∧
     s.reset.reset = s.reset) ∧
    (∀ (grule : Nat → Nat → Nat → Operation → Nat × Operation) (a v g : Nat)
        (r : Bool),
      (∀ x, ((grule a v g x).2).has_been_computed = x.has_been_computed) →
      ((Operation.grad grule a v g r s.reset).2).has_been_computed = false) := by
  refine ⟨⟨rfl, rfl, rfl, rfl, rfl, rfl, rfl, rfl, rfl, rfl, rfl, rfl⟩, ?_⟩
  intro grule a v g r hg
  unfold Operation.grad
  cases r with
  | true => simp [hg, Operation.reset]
  | false =>
    simp only [Bool.false_eq_true, if_false]
    cases h : (cacheIndex v s.reset.grad_cache).1 with
    | some t => rfl
    | none => simp [hg, Operation.reset]

/-- Claim C7 witness: on a concrete computed node, the flag-frame facts and
the `grad`-dispatch consequence at a concrete flag-preserving rule. -/
theorem C7_reset_frame_witness :
    ((Operation.grad (fun _ _ _ x => (0, x)) 1 2 3 false
        sampleComputed.reset).2).has_been_computed = false :=
  (C7_reset_frame sampleComputed 0).2 (fun _ _ _ x => (0, x)) 1 2 3 false
    (fun _ => rfl)

/-- Claim C8 counterexample: the consumer collection is a `std::vector`
grown by `push_back`, so registering the same consumer twice — directly via
`add_consumer`, or by constructing a node that lists the same input twice —
leaves two entries, not one. -/
theorem C8_consumers_duplicate_cex :
    ((sampleEmpty.add_consumer 5).add_consumer 5).consumers = [5, 5] ∧
    ((Operation.construct env0 9 [1, 1] true).1 1).consumers = [9, 9] := by
  constructor
  · rfl
  · rfl

/-- Claim C8 (amended): the consumer collection is an ordered list that
admits duplicates: `add_consumer` unconditionally appends, so a repeated
registration of the same consumer increases its number of entries by one. -/
theorem C8_add_consumer_appends (s : Operation) (c : Nat) :
    (s.add_consumer c).consumers = s.consumers ++ [c] ∧
    (s.add_consumer c).consumers.count c = s.consumers.count c + 1 := by
  refine ⟨rfl, ?_⟩
  simp [Operation.add_consumer]

/-- Claim C10 counterexample: `get_output_size` multiplies in `unsigned int`
arithmetic, so a declared shape with 2^33 elements yields 0, not the
product of the entries. -/
theorem C10_output_size_overflow_cex :
    overflowShapeOp.get_output_size ≠ overflowShapeOp.output_shape.prod ∧
    overflowShapeOp.get_output_size = 0 ∧
    overflowShapeOp.output_shape.prod = 2 ^ 33 := by
  refine ⟨?_, rfl, rfl⟩
  decide

/-- Folding wrapping multiplication equals the product taken modulo 2^32. -/
theorem foldl_mul_mod (l : List Nat) :
    ∀ a : Nat, a < UINT_MOD →
      l.foldl (fun size d => size * d % UINT_MOD) a = a * l.prod % UINT_MOD := by
  induction l with
  | nil =>
    intro a ha
    simp [Nat.mod_eq_of_lt ha]
  | cons d l ih =>
    intro a ha
    have hm : 0 < UINT_MOD := by decide
    simp only [List.foldl_cons, List.prod_cons]
    rw [ih (a * d % UINT_MOD) (Nat.mod_lt _ hm)]
    rw [Nat.mod_mul_mod]
    ring_nf

/-- Claim C10 (amended): `get_output_size` returns the product of the
declared output-shape entries reduced modulo 2^32 (`unsigned int`
arithmetic); in particular a zero-dimensional shape yields 1. -/
theorem C10_output_size_mod (s : Operation) :
    s.get_output_size = s.output_shape.prod % UINT_MOD ∧
    Operation.get_output_size { s with output_shape := [] } = 1 := by
  constructor
  · unfold Operation.get_output_size
    rw [foldl_mul_mod s.output_shape 1 (by decide)]
    rw [Nat.one_mul]
  · rfl

/-! Section: Claim theorems: gradient dispatch and gradient cache -/

/-- Claim C9: a `grad` call with `recompute = false` on a cache miss
default-inserts a null entry keyed by the queried variable (the effect of
`std::map::operator[]`), changes nothing else before invoking the local
gradient rule on the so-mutated object, and thereby grows the cache by one
slot beyond those allocated at construction. -/
theorem C9_grad_cache_miss_inserts
    (grule : Nat → Nat → Nat → Operation → Nat × Operation)
    (c var g : Nat) (s : Operation)
    (hmiss : cacheLookup var s.grad_cache = none) :
    Operation.grad grule c var g false s
      = grule c var g { s with grad_cache := s.grad_cache ++ [(var, none)] } ∧
    cacheLookup var (s.grad_cache ++ [(var, none)]) = some none ∧
    (s.grad_cache ++ [(var, none)]).length = s.grad_cache.length + 1 := by
  refine ⟨?_, ?_, by simp⟩
  · unfold Operation.grad cacheIndex
    rw [hmiss]
    simp
  · rw [cacheLookup_append_single var var none s.grad_cache hmiss]
    simp

/-- Claim C9 witness: on a concrete node with an empty gradient cache, the
cache-miss query inserts the null slot for variable 2 and falls through to
the rule. -/
theorem C9_grad_cache_miss_witness :
    Operation.grad (fun _ _ _ x => (7, x)) 1 2 3 false sampleEmpty
      = (fun _ _ _ x => ((7 : Nat), x)) 1 2 3
          { sampleEmpty with
              grad_cache := sampleEmpty.grad_cache ++ [(2, none)] } ∧
    cacheLookup 2 (sampleEmpty.grad_cache ++ [(2, none)]) = some none ∧
    (sampleEmpty.grad_cache ++ [(2, none)]).length
      = sampleEmpty.grad_cache.length + 1 :=
  C9_grad_cache_miss_inserts (fun _ _ _ x => (7, x)) 1 2 3 sampleEmpty rfl

/-- Claim C2 counterexample: a gradient query (with `recompute = false`)
for a variable never registered at construction does not fail: it returns
the local gradient rule's tensor after silently inserting a null cache slot,
and the cache lookup `get_grad_tensor` for such a variable has no defined
result (it dereferences the end iterator) instead of surfacing any error;
no `GradientTargetNotFound` error kind exists anywhere in the source. -/
theorem C2_grad_unregistered_cex :
    Operation.grad (fun _ _ _ x => (42, x)) 7 3 5 false sampleEmpty
      = (42, { sampleEmpty with grad_cache := [(3, none)] }) ∧
    Operation.get_grad_tensor 3 sampleEmpty = none :=
  ⟨rfl, rfl⟩

/-- Claim C2 (amended): requesting a gradient for an unregistered variable
is not surfaced as an error: `grad` with `recompute = false` silently
default-inserts a null cache slot for the variable and returns whatever the
local gradient rule produces, and `get_grad_tensor` performs an unchecked
map lookup whose result is undefined (modelled `none`) rather than a
reported failure. -/
theorem C2_grad_unregistered_no_failure
    (grule : Nat → Nat → Nat → Operation → Nat × Operation)
    (c var g : Nat) (s : Operation)
    (hmiss : cacheLookup var s.grad_cache = none) :
    Operation.grad grule c var g false s
      = grule c var g { s with grad_cache := s.grad_cache ++ [(var, none)] } ∧
    Operation.get_grad_tensor var s = none := by
  constructor
  · unfold Operation.grad cacheIndex
    rw [hmiss]
    simp
  · exact hmiss

/-- Claim C2 witness: the amended statement at a concrete node with an
empty cache and variable 3. -/
theorem C2_grad_unregistered_witness :
    Operation.grad (fun _ _ _ x => (42, x)) 7 3 5 false sampleEmpty
      = (fun _ _ _ x => ((42 : Nat), x)) 7 3 5
          { sampleEmpty with
              grad_cache := sampleEmpty.grad_cache ++ [(3, none)] } ∧
    Operation.get_grad_tensor 3 sampleEmpty = none :=
  C2_grad_unregistered_no_failure (fun _ _ _ x => (42, x)) 7 3 5 sampleEmpty rfl

/-! Section: Constructor lemmas -/

/-- Heap effect of the constructor loop: every pointer `j` keeps all its
fields except that, when the constructed node's `needs_grad` flag is set,
`newId` is appended to `j`'s consumer list once per occurrence of `j` among
the input pointers. -/
theorem constructLoop_env (newId : Nat) (ng : Bool) :
    ∀ (ids : List Nat) (env : Env) (cache : GradCache) (j : Nat),
      (constructLoop newId ng ids env cache).1 j
        = { env j with
            consumers := (env j).consumers
              ++ List.replicate (if ng then ids.count j else 0) newId } := by
  intro ids
  induction ids with
  | nil =>
    intro env cache j
    simp [constructLoop]
  | cons i rest ih =>
    intro env cache j
    simp only [constructLoop]
    rw [ih]
    cases ng with
    | false => simp
    | true =>
      by_cases hj : j = i
      · subst hj
        simp [envUpdate, Operation.add_consumer, List.count_cons,
          List.replicate_succ, List.append_assoc]
      · simp [envUpdate, hj, List.count_cons]

/-- Cache effect of the constructor loop: a key already present keeps its
value; an absent key ends up bound to the null pointer exactly when it
occurs among the input pointers. -/
theorem constructLoop_cache (newId : Nat) (ng : Bool) :
    ∀ (ids : List Nat) (env : Env) (cache : GradCache) (k : Nat),
      cacheLookup k (constructLoop newId ng ids env cache).2
        = match cacheLookup k cache with
          | some w => some w
          | none => if k ∈ ids then some none else none := by
  intro ids
  induction ids with
  | nil =>
    intro env cache k
    cases h : cacheLookup k cache <;> simp [constructLoop, h]
  | cons i rest ih =>
    intro env cache k
    simp only [constructLoop]
    rw [ih, cacheLookup_cacheInsert]
    by_cases hk : k = i
    · subst hk
      cases h : cacheLookup k cache with
      | some w => simp [h]
      | none => simp [h]
    · cases h : cacheLookup k cache with
      | some w => simp [hk, h]
      | none => simp [hk, h, List.mem_cons]

/-! Section: Claim theorems: graph construction -/

/-- Claim C3 counterexample: construct node 9 with the single input node 1
whose own `needs_grad` flag is false, while the new node's flag is true.
The code still registers 9 as a consumer of 1 and still allocates a
gradient-cache slot for 1 — contradicting the claim that registration and
slot allocation happen for exactly the inputs that themselves require
gradient. -/
theorem C3_construct_input_flag_cex :
    (env0 1).needs_grad = false ∧
    ((Operation.construct env0 9 [1] true).1 1).consumers = [9] ∧
    cacheLookup 1 ((Operation.construct env0 9 [1] true).2).grad_cache
      = some none :=
  ⟨rfl, rfl, rfl⟩

/-- Claim C3 (amended): construction registers the new node as a consumer
of every input — once per occurrence — exactly when the NEW node's own
`needs_grad` flag is true (the inputs' flags are not consulted), leaves
every other heap entry unchanged, and pre-allocates a null gradient-cache
slot for every distinct input pointer regardless of any gradient flag. -/
theorem C3_construct_registration (env : Env) (newId : Nat)
    (inputIds : List Nat) (ng : Bool) :
    (∀ j, (Operation.construct env newId inputIds ng).1 j
        = { env j with
            consumers := (env j).consumers
              ++ List.replicate (if ng then inputIds.count j else 0) newId }) ∧
    (∀ k, cacheLookup k
        ((Operation.construct env newId inputIds ng).2).grad_cache
        = if k ∈ inputIds then some none else none) := by
  constructor
  · intro j
    exact constructLoop_env newId ng inputIds env [] j
  · intro k
    have h := constructLoop_cache newId ng inputIds env [] k
    simpa [Operation.construct] using h

/-- Claim C4: for a fresh node pointer, after construction the new node
appears in an input's consumer list if and only if its own `needs_grad`
flag is true; with `needs_grad = false` it appears in no consumer list at
all. -/
theorem C4_consumer_registration_iff (env : Env) (newId : Nat)
    (inputIds : List Nat) (ng : Bool)
    (fresh : ∀ j, newId ∉ (env j).consumers) :
    (∀ i ∈ inputIds,
      (newId ∈ ((Operation.construct env newId inputIds ng).1 i).consumers
        ↔ ng = true)) ∧
    (ng = false →
      ∀ j, newId ∉ ((Operation.construct env newId inputIds ng).1 j).consumers) := by
  have henv := constructLoop_env newId ng inputIds env []
  constructor
  · intro i hi
    have h : (Operation.construct env newId inputIds ng).1 i
        = (constructLoop newId ng inputIds env []).1 i := rfl
    rw [h, henv i]
    cases ng with
    | true =>
      simp only [if_pos rfl]
      simp [List.mem_append, fresh i, List.mem_replicate, List.count_eq_zero, hi]
    | false =>
      simp [List.mem_append, fresh i]
  · intro hng j
    have h : (Operation.construct env newId inputIds ng).1 j
        = (constructLoop newId ng inputIds env []).1 j := rfl
    rw [h, henv j]
    subst hng
    simp [fresh j]

/-- Claim C4 witness: constructing node 9 over inputs 1 and 2 in a heap of
consumer-free nodes; with `needs_grad = true` the new node is in both
consumer lists. -/
theorem C4_consumer_registration_witness :
    (∀ i ∈ [1, 2],
      (9 ∈ ((Operation.construct env0 9 [1, 2] true).1 i).consumers
        ↔ true = true)) ∧
    (true = false →
      ∀ j, 9 ∉ ((Operation.construct env0 9 [1, 2] true).1 j).consumers) :=
  C4_consumer_registration_iff env0 9 [1, 2] true (fun _ h => nomatch h)

/-! Section: Context-propagation lemmas -/

/-- The input-loop of `set_custream` is a map over the input list. -/
theorem setCustreamList_eq_map (cs : Nat) (l : List OpTree) :
    setCustreamList cs l = l.map (OpTree.set_custream cs) := by
  induction l with
  | nil => rfl
  | cons x xs ih => simp [setCustreamList, ih]

/-- The input-loop of `set_cudnn_handle` is a map over the input list. -/
theorem setCudnnList_eq_map (cd : Nat) (l : List OpTree) :
    setCudnnList cd l = l.map (OpTree.set_cudnn_handle cd) := by
  induction l with
  | nil => rfl
  | cons x xs ih => simp [setCudnnList, ih]

/-- The input-loop of `set_cublas_handle` is a map over the input list. -/
theorem setCublasList_eq_map (cb : Nat) (l : List OpTree) :
    setCublasList cb l = l.map (OpTree.set_cublas_handle cb) := by
  induction l with
  | nil => rfl
  | cons x xs ih => simp [setCublasList, ih]

/-- Membership in the reachable nodes of a list of roots. -/
theorem mem_nodesList (m : OpTree) (l : List OpTree) :
    m ∈ nodesList l ↔ ∃ x ∈ l, m ∈ OpTree.nodes x := by
  induction l with
  | nil => simp [nodesList]
  | cons x xs ih => simp [nodesList, List.mem_append, ih]

/-- Strong induction over the input-ownership tree. -/
theorem OpTree.strongInd {P : OpTree → Prop}
    (h : ∀ cs cd cb out ins, (∀ i ∈ ins, P i) → P (.node cs cd cb out ins)) :
    ∀ t, P t
  | .node cs cd cb out ins =>
    h cs cd cb out ins (fun i hi => OpTree.strongInd h i)
decreasing_by
  have hs := List.sizeOf_lt_of_mem hi
  simp only [OpTree.node.sizeOf_spec]
  omega

/-- A tree is among its own reachable nodes. -/
theorem OpTree.self_mem_nodes : ∀ t : OpTree, t ∈ OpTree.nodes t
  | .node cs cd cb out ins => by
    simp only [OpTree.nodes]
    exact List.mem_cons_self _ _

/-- After `set_custream cs`, every reachable node carries stream `cs`. -/
theorem set_custream_nodes (cs : Nat) :
    ∀ t, ∀ m ∈ OpTree.nodes (OpTree.set_custream cs t), m.custream = cs := by
  refine OpTree.strongInd ?_
  intro cs' cd cb out ins ih m hm
  simp only [OpTree.set_custream, OpTree.nodes, setCustreamList_eq_map] at hm
  rcases List.mem_cons.mp hm with rfl | hm2
  · rfl
  · rw [mem_nodesList] at hm2
    obtain ⟨x, hx, hmx⟩ := hm2
    rw [List.mem_map] at hx
    obtain ⟨i, hi, rfl⟩ := hx
    exact ih i hi m hmx

/-- After `set_cudnn_handle cd`, every reachable node carries cuDNN handle
`cd` and its stream and cuBLAS handle come unchanged from some node of the
original tree. -/
theorem set_cudnn_nodes (cd : Nat) :
    ∀ t, ∀ m ∈ OpTree.nodes (OpTree.set_cudnn_handle cd t),
      m.cudnn = cd ∧
      ∃ m' ∈ OpTree.nodes t, m.custream = m'.custream ∧ m.cublas = m'.cublas := by
  refine OpTree.strongInd ?_
  intro cs cd' cb out ins ih m hm
  simp only [OpTree.set_cudnn_handle, OpTree.nodes, setCudnnList_eq_map] at hm
  rcases List.mem_cons.mp hm with rfl | hm2
  · exact ⟨rfl, OpTree.node cs cd' cb out ins,
      OpTree.self_mem_nodes _, rfl, rfl⟩
  · rw [mem_nodesList] at hm2
    obtain ⟨x, hx, hmx⟩ := hm2
    rw [List.mem_map] at hx
    obtain ⟨i, hi, rfl⟩ := hx
    obtain ⟨h1, m', hm', hcs, hcb⟩ := ih i hi m hmx
    refine ⟨h1, m', ?_, hcs, hcb⟩
    simp only [OpTree.nodes]
    exact List.mem_cons_of_mem _ ((mem_nodesList m' ins).mpr ⟨i, hi, hm'⟩)

/-- After `set_cublas_handle cb`, every reachable node carries cuBLAS
handle `cb` and its stream and cuDNN handle come unchanged from some node
of the original tree. -/
theorem set_cublas_nodes (cb : Nat) :
    ∀ t, ∀ m ∈ OpTree.nodes (OpTree.set_cublas_handle cb t),
      m.cublas = cb ∧
      ∃ m' ∈ OpTree.nodes t, m.custream = m'.custream ∧ m.cudnn = m'.cudnn := by
  refine OpTree.strongInd ?_
  intro cs cd cb' out ins ih m hm
  simp only [OpTree.set_cublas_handle, OpTree.nodes, setCublasList_eq_map] at hm
  rcases List.mem_cons.mp hm with rfl | hm2
  · exact ⟨rfl, OpTree.node cs cd cb' out ins,
      OpTree.self_mem_nodes _, rfl, rfl⟩
  · rw [mem_nodesList] at hm2
    obtain ⟨x, hx, hmx⟩ := hm2
    rw [List.mem_map] at hx
    obtain ⟨i, hi, rfl⟩ := hx
    obtain ⟨h1, m', hm', hcs, hcd⟩ := ih i hi m hmx
    refine ⟨h1, m', ?_, hcs, hcd⟩
    simp only [OpTree.nodes]
    exact List.mem_cons_of_mem _ ((mem_nodesList m' ins).mpr ⟨i, hi, hm'⟩)

/-! Section: Claim theorems: execution-context propagation -/

/-- Claim C5: after `cuda_exec_context ctx`, every node reachable through
input-ownership edges reports exactly `ctx`'s stream, cuBLAS handle and
cuDNN handle; after applying a second context, every reachable node is
consistent with the second context only. -/
theorem C5_context_propagation (t : OpTree) (ctx ctx2 : CudaExecContext) :
    (∀ m ∈ OpTree.nodes (OpTree.cuda_exec_context ctx t),
      m.custream = ctx.stream ∧ m.cublas = ctx.cublas_handle ∧
      m.cudnn = ctx.cudnn_handle) ∧
    (∀ m ∈ OpTree.nodes
        (OpTree.cuda_exec_context ctx2 (OpTree.cuda_exec_context ctx t)),
      m.custream = ctx2.stream ∧ m.cublas = ctx2.cublas_handle ∧
      m.cudnn = ctx2.cudnn_handle) := by
  have main : ∀ (u : OpTree) (c : CudaExecContext),
      ∀ m ∈ OpTree.nodes (OpTree.cuda_exec_context c u),
        m.custream = c.stream ∧ m.cublas = c.cublas_handle ∧
        m.cudnn = c.cudnn_handle := by
    intro u c m hm
    unfold OpTree.cuda_exec_context at hm
    obtain ⟨h1, m1, hm1, hcs1, hcb1⟩ := set_cudnn_nodes c.cudnn_handle _ m hm
    obtain ⟨h2, m2, hm2, hcs2, hcd2⟩ := set_cublas_nodes c.cublas_handle _ m1 hm1
    have h3 := set_custream_nodes c.stream u m2 hm2
    exact ⟨by rw [hcs1, hcs2, h3], by rw [hcb1, h2], h1⟩
  exact ⟨main t ctx, main (OpTree.cuda_exec_context ctx t) ctx2⟩

/-- A two-node chain with a cached output tensor at the root. -/
def t0 : OpTree := .node 1 2 3 (some ⟨4, 5, 6⟩) [.node 7 8 9 none []]

/-- First sample execution context. -/
def ctxA : CudaExecContext := ⟨10, 11, 12⟩

/-- Second sample execution context. -/
def ctxB : CudaExecContext := ⟨20, 21, 22⟩

/-- Claim C5 witness: after applying `ctxA` then `ctxB` to the sample
chain, the root reports `ctxB`'s stream and handles. -/
theorem C5_context_propagation_witness :
    (OpTree.cuda_exec_context ctxB (OpTree.cuda_exec_context ctxA t0)).custream
      = ctxB.stream ∧
    (OpTree.cuda_exec_context ctxB (OpTree.cuda_exec_context ctxA t0)).cublas
      = ctxB.cublas_handle ∧
    (OpTree.cuda_exec_context ctxB (OpTree.cuda_exec_context ctxA t0)).cudnn
      = ctxB.cudnn_handle :=
  (C5_context_propagation t0 ctxA ctxB).2 _ (OpTree.self_mem_nodes _)

/-- A leaf node whose cached output tensor carries cuDNN handle 7. -/
def tTensor : OpTree := .node 0 0 0 (some ⟨0, 7, 0⟩) []

/-- A context whose cuDNN handle is 12. -/
def ctxC : CudaExecContext := ⟨10, 11, 12⟩

/-- Claim C6 counterexample: applying a context with cuDNN handle 12 to a
node whose cached tensor carries cuDNN handle 7 leaves the tensor's cuDNN
handle at 7 — `set_cudnn_handle` never touches the output tensor, so not
all three context fields of the cached tensor are updated. -/
theorem C6_cached_tensor_cudnn_cex :
    (OpTree.cuda_exec_context ctxC tTensor).output_tensor.map
        CtxTensor.cudnn_handle = some 7 ∧
    ctxC.cudnn_handle = 12 ∧ (7 : Nat) ≠ 12 :=
  ⟨rfl, rfl, by decide⟩

/-- Claim C6 (amended): `cuda_exec_context ctx` updates the cached output
tensor's stream and cuBLAS-handle fields to `ctx`'s values (when the tensor
is non-null) but leaves the tensor's cuDNN-handle field unchanged. -/
theorem C6_cached_tensor_ctx (t : OpTree) (ctx : CudaExecContext) :
    (OpTree.cuda_exec_context ctx t).output_tensor
      = t.output_tensor.map fun x =>
          { x with custream := ctx.stream, cublas_handle := ctx.cublas_handle } := by
  obtain ⟨cs, cd, cb, out, ins⟩ := t
  cases out <;> rfl

end magmadnn.op
